import Mathlib

/-!
Shallow embedding of the updater/bootstrapper logic of
EmergencyNeuMuensterOfficial/Autoclicker (src/bootstrapper.py).

The embedding models the file system shallowly: a directory is the finite
map from relative file paths to byte contents (both as String), an archive
is the list of files it stores.  Every fallible filesystem call of the
Python source is given an explicit fault flag (an exception injected at
exactly that call site), so that the try/except control flow of
Updater.apply_update can be followed literally.  The functions keep the
order of side effects of the source; a trace of events records that order.
-/

namespace Autoclicker

/-- A directory's (or archive's) file set: relative path, byte content. -/
abbrev Dir := List (String × String)

/-- Look a file up by its relative path (first binding wins). -/
def lookupFile : Dir → String → Option String
  | [], _ => none
  | (k, v) :: rest, f => if k = f then some v else lookupFile rest f

/-- Write a file, overwriting an existing one of the same path
(shutil.copy2 / open(..., 'w') semantics). -/
def setFile (d : Dir) (k v : String) : Dir :=
  (k, v) :: d.filter (fun p => decide (p.1 ≠ k))

/-- Byte-identical file sets: both directories hold the same files with the
same contents.  Checking the keys of both sides makes this executable. -/
def sameFiles (d₁ d₂ : Dir) : Bool :=
  (d₁.map Prod.fst ++ d₂.map Prod.fst).all
    (fun k => lookupFile d₁ k == lookupFile d₂ k)

/-- Python string comparison on the underlying code points:
`charsLt a b = true` iff `a` is lexicographically smaller than `b`. -/
def charsLt : List Char → List Char → Bool
  | [], [] => false
  | [], _ :: _ => true
  | _ :: _, [] => false
  | a :: as, b :: bs =>
      if a.toNat < b.toNat then true
      else if b.toNat < a.toNat then false
      else charsLt as bs

/-- Python `a < b` on strings. -/
def strLt (a b : String) : Bool := charsLt a.data b.data

/-- Python `a <= b` on strings; `sorted` orders by this relation. -/
def strLe (a b : String) : Bool := strLt a b || a == b

/-- Python `str.lower()` (per-character lowering, as the source only ever
lowers ASCII directory names). -/
def lowerStr (s : String) : String := String.mk (s.data.map Char.toLower)

/-- `pathlib.Path.suffix` of a file name: with `i = name.rfind('.')`, the
result is `name[i:]` when `0 < i < len(name) - 1` and `""` otherwise.  In
particular the suffix of `"update.tar.gz"` is `".gz"`. -/
def pyRfindDot : List Char → Option Nat
  | [] => none
  | a :: rest =>
      match pyRfindDot rest with
      | some i => some (i + 1)
      | none => if a = '.' then some 0 else none

def pySuffix (name : String) : String :=
  match pyRfindDot name.data with
  | some i =>
      if 0 < i ∧ i + 1 < name.data.length then String.mk (name.data.drop i)
      else ""
  | none => ""

/-- bootstrapper.py line 27: the bootstrapper's own hard-coded version. -/
def APP_VERSION : String := "0.0.1"

/-- The tar suffix list of bootstrapper.py lines 209 and 239. -/
def tarSuffixes : List String := [".tar", ".tar.gz", ".tgz"]

/-- The PreservedConfigSet whitelist (bootstrapper.py lines 252 and 279). -/
def keepFiles : List String :=
  ["config.json", "profiles.json", "macros.json", "license.json"]

/-- `Updater.__init__`: `self.current_version = APP_VERSION`. -/
structure Updater where
  current_version : String
deriving Repr, DecidableEq

def theUpdater : Updater := ⟨APP_VERSION⟩

/-- One entry of `temp_extract.iterdir()` after extraction: either a
subdirectory (with its file tree, paths relative to it) or a plain file.
`iterdir` yields each directory entry once, so names are distinct. -/
inductive ExtractedItem
  | dir (name : String) (contents : Dir)
  | file (name : String) (content : String)
deriving Repr, DecidableEq

/-- A backup archive in BACKUP_DIR.  `complete = false` marks a partial
archive left behind when zipping raised midway. -/
structure BackupFile where
  name : String
  files : Dir
  complete : Bool
deriving Repr, DecidableEq

/-- The filesystem state the updater touches: the install directory (none
when it does not exist), the top-level CONFIG_DIR files, the BACKUP_DIR
archives, and whether the downloaded package file is still on disk. -/
structure Sys where
  install : Option Dir
  config : Dir
  backups : List BackupFile
  pkgOnDisk : Bool
deriving Repr, DecidableEq

/-- Exception-injection points, one per fallible call of apply_update /
_create_backup / _restore_backup.  `true` means that call raises. -/
structure Faults where
  backupZipFails : Bool
  extractFails : Bool
  removeOldFails : Bool
  copyNewFails : Bool
  versionWriteFails : Bool
  cleanupFails : Bool
  restoreExtractFails : Bool
deriving Repr, DecidableEq

def noFaults : Faults := ⟨false, false, false, false, false, false, false⟩

/-- Inputs of one `apply_update` run: the package file name, the tree the
archive extracts to, the `rollback_on_error` argument, the timestamp used
for the backup name, and the injected faults. -/
structure UpdateEnv where
  updName : String
  pkgItems : List ExtractedItem
  rollbackOnError : Bool
  now : String
  faults : Faults
deriving Repr, DecidableEq

/-- Order of side-effecting steps of one run, recorded as each step of the
source is attempted. -/
inductive Ev
  | createBackup
  | extract
  | stopInstances
  | copyConfigOut
  | removeInstall
  | copyNewFiles
  | copyConfigBack
  | writeVersion
  | cleanup
  | restoreBackup
deriving Repr, DecidableEq

/-- bootstrapper.py line 311: `backup_path = BACKUP_DIR / f"backup_{timestamp}.zip"`. -/
def backupName (now : String) : String := "backup_" ++ now ++ ".zip"

/-- Creating `backup_name` with `ZipFile(..., 'w')` replaces a file of the
same name. -/
def insertBackup (bs : List BackupFile) (b : BackupFile) : List BackupFile :=
  b :: bs.filter (fun x => decide (x.name ≠ b.name))

/-- bootstrapper.py lines 321-323: `backups = sorted(BACKUP_DIR.glob("backup_*.zip"))`
then every entry of `backups[:-5]` is unlinked, keeping the last five in
sorted (name) order. -/
def rotKeep (names : List String) : List String :=
  (List.insertionSort (fun a b : String => strLe a b = true) names).drop
    ((List.insertionSort (fun a b : String => strLe a b = true) names).length - 5)

/-- The BACKUP_DIR contents after a successful `_create_backup`: the new
archive holding every file under INSTALL_DIR, then rotation. -/
def rotatedBackups (bs : List BackupFile) (now : String) (inst : Dir) :
    List BackupFile :=
  (insertBackup bs ⟨backupName now, inst, true⟩).filter
    (fun b => decide (b.name ∈
      rotKeep ((insertBackup bs ⟨backupName now, inst, true⟩).map (fun x => x.name))))

/-- `Updater._create_backup` (bootstrapper.py lines 306-329).  Returns the
backup path (None on failure, the except-branch) and the new state.  When
zipping raises, `ZipFile(..., 'w')` has already created the archive file, so
a partial archive stays behind and rotation does not run. -/
def createBackup (s : Sys) (now : String) (zipFails : Bool) (inst : Dir) :
    Option String × Sys :=
  if zipFails then
    (none, { s with backups := insertBackup s.backups ⟨backupName now, [], false⟩ })
  else
    (some (backupName now), { s with backups := rotatedBackups s.backups now inst })

/-- `Updater._restore_backup` (bootstrapper.py lines 331-347): remove
INSTALL_DIR if present, recreate it, extract the snapshot into it.  Returns
the function's boolean result.  A missing archive or a failed extraction
hits the except-branch after the directory was already emptied. -/
def restoreBackup (s : Sys) (name : String) (extractFails : Bool) : Bool × Sys :=
  match s.backups.find? (fun b => b.name == name) with
  | some b =>
      if extractFails then (false, { s with install := some [] })
      else (true, { s with install := some b.files })
  | none => (false, { s with install := some [] })

/-- bootstrapper.py lines 262-265: the first `iterdir()` entry that is a
directory whose lowercased name contains "autoclicker". -/
def itemMatches : ExtractedItem → Bool
  | .dir name _ => decide ("autoclicker".data <:+: (lowerStr name).data)
  | .file _ _ => false

def locateApp (items : List ExtractedItem) : Option Dir :=
  match items.find? itemMatches with
  | some (.dir _ contents) => some contents
  | _ => none

/-- bootstrapper.py lines 270-276, the fallback branch: copy every
top-level item of the temp dir into INSTALL_DIR.  `copytree` of a
subdirectory creates INSTALL_DIR (makedirs); `copy2` of a plain file raises
when INSTALL_DIR does not exist yet. -/
def fallbackMerge : List ExtractedItem → Option Dir → Except Unit (Option Dir)
  | [], acc => .ok acc
  | .dir name sub :: rest, acc =>
      let base := acc.getD []
      fallbackMerge rest
        (some (sub.foldl (fun d p => setFile d (name ++ "/" ++ p.1) p.2) base))
  | .file name content :: rest, acc =>
      match acc with
      | none => .error ()
      | some d => fallbackMerge rest (some (setFile d name content))

/-- bootstrapper.py lines 253-256: copy each whitelist file that exists in
INSTALL_DIR out to CONFIG_DIR. -/
def copyOutAux (inst : Dir) : List String → Dir → Dir
  | [], cfg => cfg
  | f :: fs, cfg =>
      match lookupFile inst f with
      | some b => copyOutAux inst fs (setFile cfg f b)
      | none => copyOutAux inst fs cfg

/-- bootstrapper.py lines 279-282: copy each whitelist file that exists in
CONFIG_DIR back into INSTALL_DIR (total version, INSTALL_DIR present). -/
def copyBackPure (cfg : Dir) : List String → Dir → Dir
  | [], d => d
  | f :: fs, d =>
      match lookupFile cfg f with
      | some b => copyBackPure cfg fs (setFile d f b)
      | none => copyBackPure cfg fs d

/-- Same loop with the failure mode of `shutil.copy2`: copying into a
missing INSTALL_DIR raises. -/
def copyBackAux (cfg : Dir) : List String → Option Dir → Except Unit (Option Dir)
  | [], acc => .ok acc
  | f :: fs, acc =>
      match lookupFile cfg f with
      | some b =>
          match acc with
          | none => .error ()
          | some d => copyBackAux cfg fs (some (setFile d f b))
      | none => copyBackAux cfg fs acc

/-- The part of the state the try-block of apply_update can change. -/
structure StageSt where
  install : Option Dir
  config : Dir
  pkgOnDisk : Bool
deriving Repr, DecidableEq

/-- Result of the try-block: normal completion, the early
`return False` for an unsupported archive format, or a raised exception
(which apply_update's except-branch will see). -/
inductive StageOut
  | success (st : StageSt) (tr : List Ev)
  | unsupported (st : StageSt) (tr : List Ev)
  | exn (st : StageSt) (tr : List Ev)
deriving Repr, DecidableEq

/-- Steps of the try-block after extraction succeeded and running instances
were stopped (`_stop_running_instances` swallows every error, so it is a
no-op on the state). -/
def stageCopyNew (u : Updater) (e : UpdateEnv) (st : StageSt) (tr : List Ev) :
    StageOut :=
  if e.faults.copyNewFails then .exn st (tr ++ [Ev.copyNewFiles])
  else
    let inst? : Except Unit (Option Dir) :=
      match locateApp e.pkgItems with
      | some app => .ok (some app)
      | none => fallbackMerge e.pkgItems st.install
    match inst? with
    | .error _ => .exn st (tr ++ [Ev.copyNewFiles])
    | .ok newInst =>
        let tr₂ := tr ++ [Ev.copyNewFiles]
        match copyBackAux st.config keepFiles newInst with
        | .error _ => .exn { st with install := newInst } tr₂
        | .ok inst₂ =>
            let tr₃ := tr₂ ++ [Ev.copyConfigBack]
            if e.faults.versionWriteFails then .exn { st with install := inst₂ } tr₃
            else
              match inst₂ with
              | none => .exn { st with install := inst₂ } tr₃
              | some d =>
                  let st₄ : StageSt :=
                    { st with install := some (setFile d "version.txt" u.current_version) }
                  let tr₄ := tr₃ ++ [Ev.writeVersion]
                  if e.faults.cleanupFails then .exn st₄ tr₄
                  else .success { st₄ with pkgOnDisk := false } (tr₄ ++ [Ev.cleanup])

/-- bootstrapper.py lines 246-258: stop running instances, then (only when
INSTALL_DIR exists) copy the whitelist out and delete INSTALL_DIR. -/
def stageAfterExtract (u : Updater) (e : UpdateEnv) (st : StageSt) : StageOut :=
  let tr₀ := [Ev.extract, Ev.stopInstances]
  match st.install with
  | some inst =>
      let cfg := copyOutAux inst keepFiles st.config
      let tr₁ := tr₀ ++ [Ev.copyConfigOut]
      if e.faults.removeOldFails then .exn { st with config := cfg } tr₁
      else
        stageCopyNew u e { st with config := cfg, install := none }
          (tr₁ ++ [Ev.removeInstall])
  | none => stageCopyNew u e st tr₀

/-- The whole try-block of `Updater.apply_update` (bootstrapper.py lines
232-294).  Both archive branches extract the package into the temp dir; an
unrecognized suffix takes the `return False` branch of line 242-244. -/
def stageAndCommit (u : Updater) (e : UpdateEnv) (st : StageSt) : StageOut :=
  if pySuffix e.updName = ".zip" ∨ pySuffix e.updName ∈ tarSuffixes then
    if e.faults.extractFails then .exn st [Ev.extract]
    else stageAfterExtract u e st
  else .unsupported st []

/-- Result of one `apply_update` run: the returned boolean, the final
state, the ordered side-effect trace, and the log lines (messages
abbreviated to their fixed prefixes). -/
structure RunResult where
  ok : Bool
  sys : Sys
  trace : List Ev
  log : List String
deriving Repr, DecidableEq

def Sys.stageSt (s : Sys) : StageSt := ⟨s.install, s.config, s.pkgOnDisk⟩

def Sys.withStage (s : Sys) (st : StageSt) : Sys :=
  { s with install := st.install, config := st.config, pkgOnDisk := st.pkgOnDisk }

/-- The try/except of apply_update around the staging block: an exception
triggers `_restore_backup` only when `rollback_on_error` holds and a backup
path was taken; `_restore_backup`'s boolean result is only used to choose
the log line (the source, line 302, discards it) and `False` is returned
either way. -/
def runStaging (u : Updater) (e : UpdateEnv) (s : Sys) (tr₀ : List Ev)
    (backupPath : Option String) : RunResult :=
  match stageAndCommit u e s.stageSt with
  | .success st tr =>
      ⟨true, s.withStage st, tr₀ ++ tr, ["Update applied successfully"]⟩
  | .unsupported st tr =>
      ⟨false, s.withStage st, tr₀ ++ tr,
        ["Unsupported archive format: " ++ pySuffix e.updName]⟩
  | .exn st tr =>
      match e.rollbackOnError, backupPath with
      | true, some bp =>
          let s₂ := restoreBackup (s.withStage st) bp e.faults.restoreExtractFails
          ⟨false, s₂.2, tr₀ ++ tr ++ [Ev.restoreBackup],
            if s₂.1 then
              ["Update failed", "Rolling back to previous version...",
               "Restored from backup: " ++ bp]
            else
              ["Update failed", "Rolling back to previous version...",
               "Restore failed"]⟩
      | _, _ => ⟨false, s.withStage st, tr₀ ++ tr, ["Update failed"]⟩

/-- `Updater.apply_update` (bootstrapper.py lines 220-304).  A backup is
created only when `rollback_on_error` holds and INSTALL_DIR exists; a failed
backup aborts the run before the try-block. -/
def applyUpdate (u : Updater) (e : UpdateEnv) (s : Sys) : RunResult :=
  match e.rollbackOnError, s.install with
  | true, some inst =>
      match createBackup s e.now e.faults.backupZipFails inst with
      | (none, s₁) =>
          ⟨false, s₁, [Ev.createBackup], ["Failed to create backup!"]⟩
      | (some bp, s₁) => runStaging u e s₁ [Ev.createBackup] (some bp)
  | _, _ => runStaging u e s [] none

/-- The downloaded package as `verify_update` sees it: its file name, the
SHA-256 of its bytes (abstract), and whether it opens cleanly as a zip
archive (testzip) or as a tar archive (getmembers). -/
structure Package where
  name : String
  actualHash : String
  zipIntact : Bool
  tarIntact : Bool
deriving Repr, DecidableEq

/-- bootstrapper.py lines 204-213: the structural part of verify_update.
A suffix that is neither `.zip` nor in the tar list gets no check at all
and the function reaches `return True`. -/
def structuralCheck (p : Package) : Bool :=
  if pySuffix p.name = ".zip" then p.zipIntact
  else if pySuffix p.name ∈ tarSuffixes then p.tarIntact
  else true

/-- `Updater.verify_update` (bootstrapper.py lines 189-218).  Returns the
boolean result and the log lines; the try/except guarantees a boolean is
returned, never an exception.  Python's `if expected_hash:` treats an empty
string like None. -/
def verifyUpdate (p : Package) (expectedHash : Option String) :
    Bool × List String :=
  match expectedHash with
  | some h =>
      if h = "" then (structuralCheck p, [])
      else if p.actualHash ≠ h then
        (false, ["Hash mismatch: " ++ p.actualHash ++ " != " ++ h])
      else (structuralCheck p, [])
  | none => (structuralCheck p, [])

/-- The verify-then-apply portion of `CLI.update` (bootstrapper.py lines
1340-1349), entered after a successful download put the package on disk.
On failed verification the CLI prints a message and stops; nothing deletes
the downloaded file.  The source calls verify_update with its default
`expected_hash=None`; the hash is kept as a parameter here so that the
hash-supplied variant of the same gate can be stated. -/
def cliVerifyAndApply (u : Updater) (e : UpdateEnv) (s : Sys) (p : Package)
    (expectedHash : Option String) : RunResult :=
  if (verifyUpdate p expectedHash).1 then applyUpdate u e s
  else ⟨false, s, [], ["Update verification failed"]⟩

/-- `INSTALL_DIR / f` exists. -/
def fileExists (s : Sys) (f : String) : Bool :=
  match s.install with
  | some d => (lookupFile d f).isSome
  | none => false

/-- `Installer.check_installation` (bootstrapper.py lines 374-381): all of
`required_files = [INSTALL_DIR/"autoclicker.py", INSTALL_DIR/"requirements.txt"]`
must exist. -/
def checkInstallation (s : Sys) : Bool :=
  fileExists s "autoclicker.py" && fileExists s "requirements.txt"

/-! Concrete fixtures used by witnesses and counterexamples. -/

def instDir0 : Dir :=
  [("autoclicker.py", "old-code"), ("config.json", "theme-dark"),
   ("helper.py", "old-helper")]

def pkgApp : Dir :=
  [("autoclicker.py", "new-code"), ("requirements.txt", "pynput"),
   ("config.json", "pkg-config"), ("version.txt", "pkg-version")]

def pkgItems0 : List ExtractedItem := [.dir "Autoclicker-2.0.0" pkgApp]

def sys0 : Sys := ⟨some instDir0, [], [], true⟩

def env0 : UpdateEnv := ⟨"update.zip", pkgItems0, true, "20250102_030405", noFaults⟩

/-- env0 with an extraction failure injected (restore succeeds). -/
def envExtractFail : UpdateEnv :=
  { env0 with faults := { noFaults with extractFails := true } }

/-- env0 with an extraction failure and a failing restore. -/
def envExtractFailRestoreFail : UpdateEnv :=
  { env0 with
    faults := { noFaults with extractFails := true, restoreExtractFails := true } }

/-- env0 with a failing backup (simulated disk-full while zipping). -/
def envBackupFail : UpdateEnv :=
  { env0 with faults := { noFaults with backupZipFails := true } }

/-- A package named like the CLI names every download. -/
def pkgZipBadHash : Package := ⟨"update.zip", "deadbeef", true, true⟩

/-- A structurally corrupt gzipped tar package. -/
def pkgTarGzCorrupt : Package := ⟨"update.tar.gz", "cafe", true, false⟩

def envTarGz : UpdateEnv :=
  ⟨"update.tar.gz", pkgItems0, true, "20250102_030405", noFaults⟩

/-- Install dir holding only the entry point. -/
def sysOnlyEntry : Sys := ⟨some [("autoclicker.py", "x")], [], [], false⟩

/-- Install dir without profiles.json but with a stale CONFIG_DIR copy. -/
def sysStale : Sys :=
  ⟨some [("autoclicker.py", "old-code")], [("profiles.json", "stale-profiles")],
   [], true⟩

/-- Six pre-existing backups, older than env0's timestamp. -/
def oldBackups : List BackupFile :=
  [⟨"backup_20250101_000001.zip", [("a.txt", "1")], true⟩,
   ⟨"backup_20250101_000002.zip", [("a.txt", "2")], true⟩,
   ⟨"backup_20250101_000003.zip", [("a.txt", "3")], true⟩,
   ⟨"backup_20250101_000004.zip", [("a.txt", "4")], true⟩,
   ⟨"backup_20250101_000005.zip", [("a.txt", "5")], true⟩,
   ⟨"backup_20250101_000006.zip", [("a.txt", "6")], true⟩]

def sysRot : Sys := ⟨some instDir0, [], oldBackups, true⟩

/-- The six staging sub-steps named by the spec's Staging order. -/
def stagingSteps : List Ev :=
  [Ev.extract, Ev.stopInstances, Ev.copyConfigOut, Ev.removeInstall,
   Ev.copyNewFiles, Ev.copyConfigBack]

/-- The order the spec claims for the staging sub-steps. -/
def claimedStagingOrder : List Ev :=
  [Ev.copyConfigOut, Ev.stopInstances, Ev.removeInstall, Ev.extract,
   Ev.copyNewFiles, Ev.copyConfigBack]

/-- The order the source actually performs them in. -/
def actualStagingOrder : List Ev :=
  [Ev.extract, Ev.stopInstances, Ev.copyConfigOut, Ev.removeInstall,
   Ev.copyNewFiles, Ev.copyConfigBack]

/-! Helper lemmas about the directory model. -/

theorem lookupFile_filter_ne (d : Dir) (k f : String) (h : f ≠ k) :
    lookupFile (d.filter (fun p => decide (p.1 ≠ k))) f = lookupFile d f := by
  induction d with
  | nil => rfl
  | cons a rest ih =>
      rcases a with ⟨x, v⟩
      by_cases hxk : x = k
      · have hxf : x ≠ f := by rw [hxk]; exact fun hh => h hh.symm
        have hfil : List.filter (fun p => decide (p.1 ≠ k)) ((x, v) :: rest)
            = List.filter (fun p => decide (p.1 ≠ k)) rest := by
          rw [List.filter_cons_of_neg]
          simp [hxk]
        rw [hfil, ih]
        simp only [lookupFile, hxf, if_false]
      · have hfil : List.filter (fun p => decide (p.1 ≠ k)) ((x, v) :: rest)
            = (x, v) :: List.filter (fun p => decide (p.1 ≠ k)) rest := by
          rw [List.filter_cons_of_pos]
          simp [hxk]
        rw [hfil]
        by_cases hxf : x = f
        · simp only [lookupFile, hxf, if_true]
        · simp only [lookupFile, hxf, if_false, ih]

theorem lookupFile_setFile_self (d : Dir) (k v : String) :
    lookupFile (setFile d k v) k = some v := by
  simp [setFile, lookupFile]

theorem lookupFile_setFile_ne (d : Dir) (k v f : String) (h : f ≠ k) :
    lookupFile (setFile d k v) f = lookupFile d f := by
  have hk : k ≠ f := fun hh => h hh.symm
  unfold setFile
  simp only [lookupFile, hk, if_false]
  exact lookupFile_filter_ne d k f h

theorem sameFiles_refl (d : Dir) : sameFiles d d = true := by
  simp [sameFiles, List.all_eq_true]

/-! The whitelist copy loops. -/

theorem lookupFile_copyOutAux_not_mem (inst : Dir) (l : List String) (cfg : Dir)
    (f : String) (h : f ∉ l) :
    lookupFile (copyOutAux inst l cfg) f = lookupFile cfg f := by
  induction l generalizing cfg with
  | nil => rfl
  | cons g gs ih =>
      have hfg : f ≠ g := fun hh => h (hh ▸ List.mem_cons_self g gs)
      have hfs : f ∉ gs := fun hh => h (List.mem_cons_of_mem g hh)
      cases hg : lookupFile inst g with
      | none => simpa [copyOutAux, hg] using ih cfg hfs
      | some b =>
          simp [copyOutAux, hg, ih _ hfs, lookupFile_setFile_ne cfg g b f hfg]

theorem lookupFile_copyOutAux_mem (inst : Dir) (l : List String) (cfg : Dir)
    (f b : String) (hnd : l.Nodup) (hf : f ∈ l) (hb : lookupFile inst f = some b) :
    lookupFile (copyOutAux inst l cfg) f = some b := by
  induction l generalizing cfg with
  | nil => cases hf
  | cons g gs ih =>
      rcases List.mem_cons.mp hf with hfg | hfs
      · subst hfg
        have hfs' : f ∉ gs := (List.nodup_cons.mp hnd).1
        simp [copyOutAux, hb, lookupFile_copyOutAux_not_mem inst gs _ f hfs',
          lookupFile_setFile_self]
      · have hnd' : gs.Nodup := (List.nodup_cons.mp hnd).2
        cases hg : lookupFile inst g with
        | none => simpa [copyOutAux, hg] using ih cfg hnd' hfs
        | some c => simpa [copyOutAux, hg] using ih (setFile cfg g c) hnd' hfs

theorem lookupFile_copyOutAux_none (inst : Dir) (l : List String) (cfg : Dir)
    (f : String) (hf : lookupFile inst f = none) :
    lookupFile (copyOutAux inst l cfg) f = lookupFile cfg f := by
  induction l generalizing cfg with
  | nil => rfl
  | cons g gs ih =>
      by_cases hfg : f = g
      · subst hfg
        simp [copyOutAux, hf, ih]
      · cases hg : lookupFile inst g with
        | none => simpa [copyOutAux, hg] using ih cfg
        | some b =>
            simp [copyOutAux, hg, ih, lookupFile_setFile_ne cfg g b f hfg]

theorem copyBackAux_some_eq (cfg : Dir) (l : List String) (d : Dir) :
    copyBackAux cfg l (some d) = .ok (some (copyBackPure cfg l d)) := by
  induction l generalizing d with
  | nil => rfl
  | cons g gs ih =>
      cases hg : lookupFile cfg g with
      | none => simp [copyBackAux, copyBackPure, hg, ih]
      | some b => simp [copyBackAux, copyBackPure, hg, ih]

theorem lookupFile_copyBackPure_not_mem (cfg : Dir) (l : List String) (d : Dir)
    (f : String) (h : f ∉ l) :
    lookupFile (copyBackPure cfg l d) f = lookupFile d f := by
  induction l generalizing d with
  | nil => rfl
  | cons g gs ih =>
      have hfg : f ≠ g := fun hh => h (hh ▸ List.mem_cons_self g gs)
      have hfs : f ∉ gs := fun hh => h (List.mem_cons_of_mem g hh)
      cases hg : lookupFile cfg g with
      | none => simpa [copyBackPure, hg] using ih _ hfs
      | some b =>
          simp [copyBackPure, hg, ih _ hfs, lookupFile_setFile_ne d g b f hfg]

theorem lookupFile_copyBackPure_mem (cfg : Dir) (l : List String) (d : Dir)
    (f b : String) (hnd : l.Nodup) (hf : f ∈ l) (hb : lookupFile cfg f = some b) :
    lookupFile (copyBackPure cfg l d) f = some b := by
  induction l generalizing d with
  | nil => cases hf
  | cons g gs ih =>
      rcases List.mem_cons.mp hf with hfg | hfs
      · subst hfg
        have hfs' : f ∉ gs := (List.nodup_cons.mp hnd).1
        simp [copyBackPure, hb, lookupFile_copyBackPure_not_mem cfg gs _ f hfs',
          lookupFile_setFile_self]
      · have hnd' : gs.Nodup := (List.nodup_cons.mp hnd).2
        cases hg : lookupFile cfg g with
        | none => simpa [copyBackPure, hg] using ih d hnd' hfs
        | some c => simpa [copyBackPure, hg] using ih (setFile d g c) hnd' hfs

theorem keepFiles_nodup : keepFiles.Nodup := by decide

theorem mem_keepFiles_ne_version (f : String) (h : f ∈ keepFiles) :
    f ≠ "version.txt" := by
  simp only [keepFiles, List.mem_cons, List.not_mem_nil, or_false] at h
  rcases h with h | h | h | h <;> subst h <;> decide

/-! The lexicographic order Python's `sorted` uses on backup names. -/

theorem charsLt_asymm (a b : List Char) (h₁ : charsLt a b = true)
    (h₂ : charsLt b a = true) : False := by
  induction a generalizing b with
  | nil => cases b <;> simp [charsLt] at h₁ h₂
  | cons x xs ih =>
      cases b with
      | nil => simp [charsLt] at h₁
      | cons y ys =>
          by_cases hxy : x.toNat < y.toNat
          · have : ¬ y.toNat < x.toNat := by omega
            simp [charsLt, hxy, this] at h₂
          · by_cases hyx : y.toNat < x.toNat
            · simp [charsLt, hxy, hyx] at h₁
            · simp [charsLt, hxy, hyx] at h₁ h₂
              exact ih ys h₁ h₂

theorem charsLt_trans (a b c : List Char) (h₁ : charsLt a b = true)
    (h₂ : charsLt b c = true) : charsLt a c = true := by
  induction a generalizing b c with
  | nil =>
      cases b with
      | nil => simp [charsLt] at h₁
      | cons y ys => cases c with
        | nil => simp [charsLt] at h₂
        | cons z zs => simp [charsLt]
  | cons x xs ih =>
      cases b with
      | nil => simp [charsLt] at h₁
      | cons y ys =>
          cases c with
          | nil => simp [charsLt] at h₂
          | cons z zs =>
              by_cases hxy : x.toNat < y.toNat <;> by_cases hyz : y.toNat < z.toNat
              · have hxz : x.toNat < z.toNat := by omega
                simp [charsLt, hxz]
              · by_cases hzy : z.toNat < y.toNat
                · simp [charsLt, hyz, hzy] at h₂
                · have hyez : y.toNat = z.toNat := by omega
                  have hxz : x.toNat < z.toNat := by omega
                  simp [charsLt, hxz]
              · by_cases hyx : y.toNat < x.toNat
                · simp [charsLt, hxy, hyx] at h₁
                · have hxey : x.toNat = y.toNat := by omega
                  have hxz : x.toNat < z.toNat := by omega
                  simp [charsLt, hxz]
              · by_cases hyx : y.toNat < x.toNat
                · simp [charsLt, hxy, hyx] at h₁
                · by_cases hzy : z.toNat < y.toNat
                  · simp [charsLt, hyz, hzy] at h₂
                  · have hxz₁ : ¬ x.toNat < z.toNat := by omega
                    have hxz₂ : ¬ z.toNat < x.toNat := by omega
                    simp [charsLt, hxy, hyx] at h₁
                    simp [charsLt, hyz, hzy] at h₂
                    simp [charsLt, hxz₁, hxz₂]
                    exact ih ys zs h₁ h₂

theorem char_eq_of_toNat_eq (a b : Char) (h : a.toNat = b.toNat) : a = b := by
  have ha := Char.ofNat_toNat a
  rw [← ha, h, Char.ofNat_toNat]

theorem charsLt_trichotomy (a b : List Char) :
    charsLt a b = true ∨ charsLt b a = true ∨ a = b := by
  induction a generalizing b with
  | nil => cases b with
    | nil => right; right; rfl
    | cons y ys => left; simp [charsLt]
  | cons x xs ih =>
      cases b with
      | nil => right; left; simp [charsLt]
      | cons y ys =>
          rcases Nat.lt_trichotomy x.toNat y.toNat with hlt | heq | hgt
          · left; simp [charsLt, hlt]
          · have hxy : x = y := char_eq_of_toNat_eq x y heq
            subst hxy
            have hnlt : ¬ x.toNat < x.toNat := by omega
            rcases ih ys with h | h | h
            · left; simp [charsLt, hnlt, h]
            · right; left; simp [charsLt, hnlt, h]
            · right; right; rw [h]
          · right; left; simp [charsLt, hgt]

theorem strLe_total' (a b : String) : strLe a b = true ∨ strLe b a = true := by
  rcases charsLt_trichotomy a.data b.data with h | h | h
  · left; simp [strLe, strLt, h]
  · right; simp [strLe, strLt, h]
  · left
    have hab : a = b := by
      cases a
      cases b
      exact congrArg String.mk h
    simp [strLe, hab]

theorem strLe_trans' (a b c : String) (h₁ : strLe a b = true)
    (h₂ : strLe b c = true) : strLe a c = true := by
  simp only [strLe, Bool.or_eq_true, beq_iff_eq] at h₁ h₂ ⊢
  rcases h₁ with h₁ | h₁ <;> rcases h₂ with h₂ | h₂
  · exact Or.inl (charsLt_trans _ _ _ h₁ h₂)
  · subst h₂; exact Or.inl h₁
  · subst h₁; exact Or.inl h₂
  · subst h₁; exact Or.inr h₂

theorem strLt_of_strLe_of_ne (a b : String) (h : strLe a b = true) (hne : a ≠ b) :
    strLt a b = true := by
  simp only [strLe, Bool.or_eq_true, beq_iff_eq] at h
  rcases h with h | h
  · exact h
  · exact absurd h hne

theorem strLt_irrefl (a : String) : strLt a a = false := by
  cases hl : strLt a a
  · rfl
  · exact (charsLt_asymm a.data a.data hl hl).elim

theorem ne_of_strLt (a b : String) (h : strLt a b = true) : a ≠ b := by
  intro he
  subst he
  rw [strLt_irrefl a] at h
  cases h

/-! Rotation: `sorted(...)` then delete `backups[:-5]`. -/

theorem sorted_perm_names (names : List String) :
    (List.insertionSort (fun a b : String => strLe a b = true) names).Perm names :=
  List.perm_insertionSort _ names

theorem sorted_names_sorted (names : List String) :
    List.Sorted (fun a b : String => strLe a b = true)
      (List.insertionSort (fun a b : String => strLe a b = true) names) :=
  @List.sorted_insertionSort String (fun a b : String => strLe a b = true) _
    ⟨fun a b => strLe_total' a b⟩ ⟨fun a b c => strLe_trans' a b c⟩ names

theorem rotKeep_subset (names : List String) : rotKeep names ⊆ names := by
  intro x hx
  exact (sorted_perm_names names).subset (List.drop_subset _ _ hx)

theorem rotKeep_length_le (names : List String) : (rotKeep names).length ≤ 5 := by
  unfold rotKeep
  rw [List.length_drop]
  omega

theorem mem_rotKeep_of_max (names : List String) (m : String)
    (hnd : names.Nodup) (hm : m ∈ names)
    (hmax : ∀ x ∈ names, x ≠ m → strLt x m = true) :
    m ∈ rotKeep names := by
  have hperm := sorted_perm_names names
  have hsort := sorted_names_sorted names
  have hnds : (List.insertionSort (fun a b : String => strLe a b = true) names).Nodup :=
    hperm.symm.nodup hnd
  set s := List.insertionSort (fun a b : String => strLe a b = true) names with hsdef
  have hms : m ∈ s := hperm.mem_iff.mpr hm
  have hmsplit : m ∈ s.take (s.length - 5) ++ s.drop (s.length - 5) := by
    rw [List.take_append_drop]; exact hms
  rcases List.mem_append.mp hmsplit with htake | hdrop
  · exfalso
    have hpos : 0 < s.length := List.length_pos.mpr (List.ne_nil_of_mem hms)
    have hne : s.drop (s.length - 5) ≠ [] := by
      intro hnil
      have := List.drop_eq_nil_iff.mp hnil
      omega
    obtain ⟨y, hy⟩ := List.exists_mem_of_ne_nil _ hne
    have hrel : strLe m y = true :=
      hsort.rel_of_mem_take_of_mem_drop htake hy
    have hdisj := List.disjoint_take_drop hnds (le_refl (s.length - 5))
    have hym : y ≠ m := by
      intro he
      exact hdisj htake (he ▸ hy)
    have hy' : y ∈ names := hperm.subset (List.drop_subset _ _ hy)
    have hylt : strLt y m = true := hmax y hy' hym
    simp only [strLe, Bool.or_eq_true, beq_iff_eq] at hrel
    rcases hrel with hlt | heq
    · exact charsLt_asymm _ _ hlt hylt
    · exact hym heq.symm
  · exact hdrop

theorem strLt_of_mem_not_rotKeep (names : List String) (x y : String)
    (hx : x ∈ names) (hxk : x ∉ rotKeep names)
    (hyk : y ∈ rotKeep names) : strLt x y = true := by
  have hperm := sorted_perm_names names
  have hsort := sorted_names_sorted names
  set s := List.insertionSort (fun a b : String => strLe a b = true) names with hsdef
  have hxs : x ∈ s := hperm.mem_iff.mpr hx
  have hxsplit : x ∈ s.take (s.length - 5) ++ s.drop (s.length - 5) := by
    rw [List.take_append_drop]; exact hxs
  have hxtake : x ∈ s.take (s.length - 5) := by
    rcases List.mem_append.mp hxsplit with h | h
    · exact h
    · exact absurd h hxk
  have hrel : strLe x y = true :=
    hsort.rel_of_mem_take_of_mem_drop hxtake hyk
  have hxy : x ≠ y := by
    intro he
    exact hxk (he ▸ hyk)
  exact strLt_of_strLe_of_ne x y hrel hxy

/-! Facts about `_create_backup`'s archive set. -/

theorem insertBackup_names (bs : List BackupFile) (b : BackupFile) :
    (insertBackup bs b).map (fun x => x.name)
      = b.name :: (bs.map (fun x => x.name)).filter (fun n => decide (n ≠ b.name)) := by
  unfold insertBackup
  simp [List.filter_map, Function.comp_def]

theorem nodup_insertBackup_names (bs : List BackupFile) (b : BackupFile)
    (hnd : (bs.map (fun x => x.name)).Nodup) :
    ((insertBackup bs b).map (fun x => x.name)).Nodup := by
  rw [insertBackup_names]
  refine List.nodup_cons.mpr ⟨?_, hnd.filter _⟩
  intro hmem
  have := List.of_mem_filter hmem
  simp at this

theorem mem_insertBackup_of_lt (bs : List BackupFile) (b x : BackupFile)
    (hx : x ∈ bs) (hlt : strLt x.name b.name = true) :
    x ∈ insertBackup bs b := by
  unfold insertBackup
  refine List.mem_cons_of_mem _ (List.mem_filter.mpr ⟨hx, ?_⟩)
  simpa using ne_of_strLt _ _ hlt

theorem backupName_mem_rotKeep (bs : List BackupFile) (now : String) (inst : Dir)
    (hnd : (bs.map (fun x => x.name)).Nodup)
    (hclock : ∀ x ∈ bs, strLt x.name (backupName now) = true) :
    backupName now ∈ rotKeep
      ((insertBackup bs ⟨backupName now, inst, true⟩).map (fun x => x.name)) := by
  apply mem_rotKeep_of_max
  · exact nodup_insertBackup_names bs _ hnd
  · rw [insertBackup_names]
    exact List.mem_cons_self _ _
  · intro x hx hxm
    rw [insertBackup_names] at hx
    rcases List.mem_cons.mp hx with h | h
    · exact absurd h hxm
    · have hx' := List.mem_of_mem_filter h
      obtain ⟨y, hy, hyx⟩ := List.mem_map.mp hx'
      rw [← hyx]
      exact hclock y hy

theorem find_self_rotatedBackups (bs : List BackupFile) (now : String) (inst : Dir)
    (hnd : (bs.map (fun x => x.name)).Nodup)
    (hclock : ∀ x ∈ bs, strLt x.name (backupName now) = true) :
    (rotatedBackups bs now inst).find? (fun b => b.name == backupName now)
      = some ⟨backupName now, inst, true⟩ := by
  have hkeep := backupName_mem_rotKeep bs now inst hnd hclock
  unfold rotatedBackups
  have hcons : insertBackup bs ⟨backupName now, inst, true⟩
      = ⟨backupName now, inst, true⟩ ::
        bs.filter (fun x => decide (x.name ≠ backupName now)) := rfl
  rw [hcons]
  rw [List.filter_cons_of_pos]
  · simp [List.find?]
  · rw [← hcons]
    exact decide_eq_true hkeep

theorem rotatedBackups_length_le (bs : List BackupFile) (now : String) (inst : Dir)
    (hnd : (bs.map (fun x => x.name)).Nodup) :
    (rotatedBackups bs now inst).length ≤ 5 := by
  have hnd' : ((rotatedBackups bs now inst).map (fun x => x.name)).Nodup := by
    refine List.Nodup.sublist (List.Sublist.map _ (List.filter_sublist _)) ?_
    exact nodup_insertBackup_names bs _ hnd
  have hsub : (rotatedBackups bs now inst).map (fun x => x.name) ⊆
      rotKeep ((insertBackup bs ⟨backupName now, inst, true⟩).map (fun x => x.name)) := by
    intro n hn
    obtain ⟨b, hb, hbn⟩ := List.mem_map.mp hn
    have := List.of_mem_filter hb
    rw [← hbn]
    exact of_decide_eq_true this
  have hle := (List.subperm_of_subset hnd' hsub).length_le
  rw [List.length_map] at hle
  exact le_trans hle (rotKeep_length_le _)

theorem backupName_mem_rotatedBackups (bs : List BackupFile) (now : String) (inst : Dir)
    (hnd : (bs.map (fun x => x.name)).Nodup)
    (hclock : ∀ x ∈ bs, strLt x.name (backupName now) = true) :
    backupName now ∈ (rotatedBackups bs now inst).map (fun x => x.name) := by
  have hfind := find_self_rotatedBackups bs now inst hnd hclock
  have hmem := List.mem_of_find?_eq_some hfind
  exact List.mem_map.mpr ⟨_, hmem, rfl⟩

theorem rotatedBackups_evict_lt (bs : List BackupFile) (now : String) (inst : Dir)
    (bOld bKept : BackupFile)
    (hclock : ∀ x ∈ bs, strLt x.name (backupName now) = true)
    (hold : bOld ∈ bs)
    (hnotin : bOld.name ∉ (rotatedBackups bs now inst).map (fun x => x.name))
    (hkept : bKept ∈ rotatedBackups bs now inst) :
    strLt bOld.name bKept.name = true := by
  have hbs' : bOld ∈ insertBackup bs ⟨backupName now, inst, true⟩ :=
    mem_insertBackup_of_lt bs _ bOld hold (hclock bOld hold)
  have hx : bOld.name ∈ (insertBackup bs ⟨backupName now, inst, true⟩).map
      (fun x => x.name) := List.mem_map.mpr ⟨_, hbs', rfl⟩
  have hxnk : bOld.name ∉ rotKeep
      ((insertBackup bs ⟨backupName now, inst, true⟩).map (fun x => x.name)) := by
    intro hmem
    apply hnotin
    refine List.mem_map.mpr ⟨bOld, ?_, rfl⟩
    unfold rotatedBackups
    exact List.mem_filter.mpr ⟨hbs', decide_eq_true hmem⟩
  have hyk : bKept.name ∈ rotKeep
      ((insertBackup bs ⟨backupName now, inst, true⟩).map (fun x => x.name)) := by
    have := List.of_mem_filter hkept
    exact of_decide_eq_true this
  exact strLt_of_mem_not_rotKeep _ _ _ hx hxnk hyk

/-! The staging block: full evaluation on the success path, and the
exception outcome under injected faults. -/

theorem stageAndCommit_success_eq (u : Updater) (e : UpdateEnv) (st : StageSt)
    (inst app : Dir)
    (hsfx : pySuffix e.updName = ".zip" ∨ pySuffix e.updName ∈ tarSuffixes)
    (hf : e.faults = noFaults)
    (hinst : st.install = some inst)
    (hloc : locateApp e.pkgItems = some app) :
    stageAndCommit u e st = .success
      ⟨some (setFile (copyBackPure (copyOutAux inst keepFiles st.config) keepFiles app)
          "version.txt" u.current_version),
        copyOutAux inst keepFiles st.config, false⟩
      [Ev.extract, Ev.stopInstances, Ev.copyConfigOut, Ev.removeInstall,
       Ev.copyNewFiles, Ev.copyConfigBack, Ev.writeVersion, Ev.cleanup] := by
  obtain ⟨nm, items, rb, nw, fl⟩ := e
  obtain ⟨oinst, cfg, pod⟩ := st
  simp only at hsfx hloc hinst hf
  subst hf
  subst hinst
  unfold stageAndCommit
  rw [if_pos hsfx]
  unfold stageAfterExtract stageCopyNew
  simp only [noFaults, Bool.false_eq_true, if_false, hloc, copyBackAux_some_eq]
  rfl

theorem stageAndCommit_exn_of_fault (u : Updater) (e : UpdateEnv) (st : StageSt)
    (inst : Dir)
    (hsfx : pySuffix e.updName = ".zip" ∨ pySuffix e.updName ∈ tarSuffixes)
    (hinst : st.install = some inst)
    (hfault : e.faults.extractFails = true ∨ e.faults.removeOldFails = true ∨
      e.faults.copyNewFails = true ∨ e.faults.versionWriteFails = true) :
    ∃ st' tr, stageAndCommit u e st = .exn st' tr := by
  obtain ⟨nm, items, rb, nw, fl⟩ := e
  obtain ⟨oinst, cfg, pod⟩ := st
  simp only at hsfx hfault hinst
  subst hinst
  unfold stageAndCommit stageAfterExtract stageCopyNew
  rw [if_pos hsfx]
  rcases hfault with hF | hF | hF | hF
  all_goals
    (simp only [hF]
     repeat' split
     all_goals first
       | exact ⟨_, _, rfl⟩
       | (exfalso; simp_all))

theorem runStaging_backups (u : Updater) (e : UpdateEnv) (s : Sys) (tr₀ : List Ev)
    (bp : Option String) :
    (runStaging u e s tr₀ bp).sys.backups = s.backups := by
  unfold runStaging
  cases hs : stageAndCommit u e s.stageSt with
  | success st tr => rfl
  | unsupported st tr => rfl
  | exn st tr =>
      cases hrb : e.rollbackOnError with
      | false => cases bp <;> rfl
      | true =>
          cases bp with
          | none => rfl
          | some b =>
              simp only
              unfold restoreBackup
              cases hf : (s.withStage st).backups.find? (fun x => x.name == b) with
              | none => simp [Sys.withStage]
              | some bf =>
                  cases e.faults.restoreExtractFails <;>
                    simp [Sys.withStage]

theorem applyUpdate_success_eq (u : Updater) (e : UpdateEnv) (s : Sys)
    (inst app : Dir)
    (hro : e.rollbackOnError = true)
    (hinst : s.install = some inst)
    (hsfx : pySuffix e.updName = ".zip" ∨ pySuffix e.updName ∈ tarSuffixes)
    (hf : e.faults = noFaults)
    (hloc : locateApp e.pkgItems = some app) :
    applyUpdate u e s =
      ⟨true,
        ⟨some (setFile (copyBackPure (copyOutAux inst keepFiles s.config) keepFiles app)
            "version.txt" u.current_version),
          copyOutAux inst keepFiles s.config,
          rotatedBackups s.backups e.now inst, false⟩,
        [Ev.createBackup, Ev.extract, Ev.stopInstances, Ev.copyConfigOut,
         Ev.removeInstall, Ev.copyNewFiles, Ev.copyConfigBack, Ev.writeVersion,
         Ev.cleanup],
        ["Update applied successfully"]⟩ := by
  have hbz : e.faults.backupZipFails = false := by simp [hf, noFaults]
  unfold applyUpdate
  rw [hro, hinst]
  simp only [createBackup, hbz, Bool.false_eq_true, if_false]
  unfold runStaging
  rw [stageAndCommit_success_eq u e _ inst app hsfx hf (by simp [Sys.stageSt, hinst]) hloc]
  simp [Sys.withStage, Sys.stageSt]

/-! Claim theorems. -/

/-- C1 (amended): with rollback_on_error, an existing install directory and
a successfully created backup, any exception injected into the staging
steps (extraction, removal of the old install dir, copying of new files, or
the version write) makes apply_update attempt a restore; when the restore
succeeds the install directory's file set is byte-identical to its
pre-update state and the log records the restore; the run returns False in
all cases, and when the restore itself fails only the log line differs. -/
theorem apply_update_rollback_on_staging_exception (u : Updater) (e : UpdateEnv)
    (s : Sys) (inst : Dir)
    (hro : e.rollbackOnError = true)
    (hinst : s.install = some inst)
    (hbz : e.faults.backupZipFails = false)
    (hnd : (s.backups.map (fun x => x.name)).Nodup)
    (hclock : ∀ x ∈ s.backups, strLt x.name (backupName e.now) = true)
    (hsfx : pySuffix e.updName = ".zip" ∨ pySuffix e.updName ∈ tarSuffixes)
    (hfault : e.faults.extractFails = true ∨ e.faults.removeOldFails = true ∨
      e.faults.copyNewFails = true ∨ e.faults.versionWriteFails = true) :
    (applyUpdate u e s).ok = false ∧
    (e.faults.restoreExtractFails = false →
      (applyUpdate u e s).sys.install = some inst ∧
      ("Restored from backup: " ++ backupName e.now) ∈ (applyUpdate u e s).log) ∧
    (e.faults.restoreExtractFails = true →
      "Restore failed" ∈ (applyUpdate u e s).log) := by
  have hfind := find_self_rotatedBackups s.backups e.now inst hnd hclock
  obtain ⟨st', tr', hstage⟩ :=
    stageAndCommit_exn_of_fault u e
      (Sys.stageSt { s with backups := rotatedBackups s.backups e.now inst }) inst hsfx
      (by simp [Sys.stageSt, hinst]) hfault
  unfold applyUpdate
  rw [hro, hinst]
  simp only [createBackup, hbz, Bool.false_eq_true, if_false]
  unfold runStaging
  rw [hstage, hro]
  simp only
  unfold restoreBackup
  simp only [Sys.withStage]
  rw [hfind]
  cases hre : e.faults.restoreExtractFails
  · simp
  · simp

/-- C1 witness: with an extraction failure injected, apply_update returns
False and the install directory is byte-identical to its pre-update
contents. -/
theorem apply_update_rollback_on_staging_exception_witness :
    (applyUpdate theUpdater envExtractFail sys0).ok = false ∧
    (applyUpdate theUpdater envExtractFail sys0).sys.install = some instDir0 ∧
    ("Restored from backup: " ++ backupName envExtractFail.now)
      ∈ (applyUpdate theUpdater envExtractFail sys0).log := by
  have h := apply_update_rollback_on_staging_exception theUpdater envExtractFail
    sys0 instDir0 rfl rfl rfl (by simp [sys0]) (by simp [sys0]) (Or.inl (by decide))
    (Or.inl rfl)
  exact ⟨h.1, (h.2.1 rfl).1, (h.2.1 rfl).2⟩

/-- C1 counterexample: a run whose rollback succeeds and a run whose
rollback fails report the same outcome (apply_update returns False in both;
_restore_backup's boolean is discarded at bootstrapper.py line 302), so a
successful rollback is not reported distinctly from a failed one.  The two
final install directories show that the first run really rolled back and
the second run's restore really failed. -/
theorem rollback_outcome_not_distinguished :
    (applyUpdate theUpdater envExtractFail sys0).ok = false ∧
    (applyUpdate theUpdater envExtractFailRestoreFail sys0).ok = false ∧
    (applyUpdate theUpdater envExtractFail sys0).ok
      = (applyUpdate theUpdater envExtractFailRestoreFail sys0).ok ∧
    (applyUpdate theUpdater envExtractFail sys0).sys.install = some instDir0 ∧
    (applyUpdate theUpdater envExtractFailRestoreFail sys0).sys.install
      = some [] := by decide

/-- C2: with rollback_on_error and an existing installation, a failing
backup creation makes apply_update return False right away: the only step
performed is the backup attempt, and the install directory and config area
are untouched. -/
theorem backup_failure_aborts_update (u : Updater) (e : UpdateEnv) (s : Sys)
    (inst : Dir)
    (hro : e.rollbackOnError = true)
    (hinst : s.install = some inst)
    (hbf : e.faults.backupZipFails = true) :
    (applyUpdate u e s).ok = false ∧
    (applyUpdate u e s).sys.install = some inst ∧
    (applyUpdate u e s).sys.config = s.config ∧
    (applyUpdate u e s).trace = [Ev.createBackup] := by
  unfold applyUpdate
  rw [hro, hinst]
  simp [createBackup, hbf, hinst]

/-- C2 witness: a concrete disk-full backup failure aborts the update and
leaves the install directory byte-for-byte identical. -/
theorem backup_failure_aborts_update_witness :
    (applyUpdate theUpdater envBackupFail sys0).ok = false ∧
    (applyUpdate theUpdater envBackupFail sys0).sys.install = some instDir0 ∧
    (applyUpdate theUpdater envBackupFail sys0).sys.config = sys0.config ∧
    (applyUpdate theUpdater envBackupFail sys0).trace = [Ev.createBackup] :=
  backup_failure_aborts_update theUpdater envBackupFail sys0 instDir0 rfl rfl rfl

/-- C3 (code bug): a fully successful apply_update writes
`self.current_version` — the bootstrapper's hard-coded APP_VERSION "0.0.1",
never the new release's version — into version.txt, and the write is
followed by further filesystem operations (temp-dir removal and package
deletion, the cleanup event after writeVersion in the trace). -/
theorem version_written_is_bootstrapper_constant :
    (applyUpdate theUpdater env0 sys0).ok = true ∧
    lookupFile ((applyUpdate theUpdater env0 sys0).sys.install.getD [])
      "version.txt" = some APP_VERSION ∧
    APP_VERSION ≠ "2.0.0" ∧
    (applyUpdate theUpdater env0 sys0).trace
      = [Ev.createBackup, Ev.extract, Ev.stopInstances, Ev.copyConfigOut,
         Ev.removeInstall, Ev.copyNewFiles, Ev.copyConfigBack, Ev.writeVersion,
         Ev.cleanup] := by decide

/-- C4 (amended): after a successful apply_update, every whitelist file
that existed in the install dir keeps its exact bytes, and every
non-whitelist file other than version.txt comes from (or is absent per)
the staged package contents; version.txt is written by the updater itself. -/
theorem apply_update_preserves_whitelist (u : Updater) (e : UpdateEnv) (s : Sys)
    (inst app : Dir)
    (hro : e.rollbackOnError = true)
    (hinst : s.install = some inst)
    (hsfx : pySuffix e.updName = ".zip" ∨ pySuffix e.updName ∈ tarSuffixes)
    (hf : e.faults = noFaults)
    (hloc : locateApp e.pkgItems = some app) :
    (applyUpdate u e s).ok = true ∧
    (applyUpdate u e s).sys.install.isSome = true ∧
    (∀ f ∈ keepFiles, ∀ b, lookupFile inst f = some b →
      lookupFile ((applyUpdate u e s).sys.install.getD []) f = some b) ∧
    (∀ f, f ∉ keepFiles → f ≠ "version.txt" →
      lookupFile ((applyUpdate u e s).sys.install.getD []) f = lookupFile app f) := by
  rw [applyUpdate_success_eq u e s inst app hro hinst hsfx hf hloc]
  refine ⟨rfl, rfl, ?_, ?_⟩
  · intro f hfmem b hb
    show lookupFile (setFile (copyBackPure (copyOutAux inst keepFiles s.config)
      keepFiles app) "version.txt" u.current_version) f = some b
    rw [lookupFile_setFile_ne _ _ _ f (mem_keepFiles_ne_version f hfmem)]
    exact lookupFile_copyBackPure_mem _ _ _ f b keepFiles_nodup hfmem
      (lookupFile_copyOutAux_mem inst keepFiles s.config f b keepFiles_nodup hfmem hb)
  · intro f hfnot hfv
    show lookupFile (setFile (copyBackPure (copyOutAux inst keepFiles s.config)
      keepFiles app) "version.txt" u.current_version) f = lookupFile app f
    rw [lookupFile_setFile_ne _ _ _ f hfv]
    exact lookupFile_copyBackPure_not_mem _ _ _ f hfnot

/-- C4 witness: on a concrete successful update, config.json keeps its
pre-update bytes. -/
theorem apply_update_preserves_whitelist_witness :
    (applyUpdate theUpdater env0 sys0).ok = true ∧
    lookupFile ((applyUpdate theUpdater env0 sys0).sys.install.getD [])
      "config.json" = some "theme-dark" := by
  have h := apply_update_preserves_whitelist theUpdater env0 sys0 instDir0 pkgApp
    rfl rfl (Or.inl (by decide)) rfl (by decide)
  exact ⟨h.1, h.2.2.1 "config.json" (by decide) "theme-dark" rfl⟩

/-- C4 counterexample: version.txt is not on the whitelist, yet after a
successful update it neither comes from the new package nor is absent: the
package staged version.txt with content "pkg-version" but the install dir
holds "0.0.1", written by the updater. -/
theorem nonwhitelist_version_file_not_from_package :
    ("version.txt" ∉ keepFiles) ∧
    lookupFile pkgApp "version.txt" = some "pkg-version" ∧
    (applyUpdate theUpdater env0 sys0).ok = true ∧
    lookupFile ((applyUpdate theUpdater env0 sys0).sys.install.getD [])
      "version.txt" ≠ lookupFile pkgApp "version.txt" := by decide

/-- C5: after a successful _create_backup, at most five backup archives
remain, the just-created (newest) one is among them, every evicted archive
has a name ordering before every kept one (oldest evicted first), and the
backup set of the whole apply_update run equals this rotated set no matter
which faults the rest of the update hits — retention is independent of
update outcome. -/
theorem create_backup_rotation_bound (u : Updater) (e : UpdateEnv) (s : Sys)
    (inst : Dir)
    (hro : e.rollbackOnError = true)
    (hinst : s.install = some inst)
    (hbz : e.faults.backupZipFails = false)
    (hnd : (s.backups.map (fun x => x.name)).Nodup)
    (hclock : ∀ x ∈ s.backups, strLt x.name (backupName e.now) = true) :
    (applyUpdate u e s).sys.backups = rotatedBackups s.backups e.now inst ∧
    (rotatedBackups s.backups e.now inst).length ≤ 5 ∧
    backupName e.now ∈ (rotatedBackups s.backups e.now inst).map (fun x => x.name) ∧
    (∀ bOld ∈ s.backups,
      bOld.name ∉ (rotatedBackups s.backups e.now inst).map (fun x => x.name) →
      ∀ bKept ∈ rotatedBackups s.backups e.now inst,
        strLt bOld.name bKept.name = true) := by
  refine ⟨?_, rotatedBackups_length_le s.backups e.now inst hnd,
    backupName_mem_rotatedBackups s.backups e.now inst hnd hclock, ?_⟩
  · unfold applyUpdate
    rw [hro, hinst]
    simp only [createBackup, hbz, Bool.false_eq_true, if_false]
    rw [runStaging_backups]
  · intro bOld hOld hnotin bKept hKept
    exact rotatedBackups_evict_lt s.backups e.now inst bOld bKept hclock hOld
      hnotin hKept

/-- C5 witness: starting from six older backups, a successful backup leaves
the rotated set (at most five, containing the new archive) and the whole
run keeps exactly that set. -/
theorem create_backup_rotation_bound_witness :
    (applyUpdate theUpdater env0 sysRot).sys.backups
      = rotatedBackups sysRot.backups env0.now instDir0 ∧
    (rotatedBackups sysRot.backups env0.now instDir0).length ≤ 5 ∧
    backupName env0.now
      ∈ (rotatedBackups sysRot.backups env0.now instDir0).map (fun x => x.name) := by
  have h := create_backup_rotation_bound theUpdater env0 sysRot instDir0 rfl rfl rfl
    (by decide) (by decide)
  exact ⟨h.1, h.2.1, h.2.2.1⟩

/-- C6 (amended): a supplied non-empty expected hash that differs from the
package's computed hash makes verify_update return false (not raise),
logging both hash values, and the CLI gate then stops without touching any
state — but the downloaded package file stays on disk; nothing deletes it. -/
theorem verify_update_hash_gate (u : Updater) (e : UpdateEnv) (s : Sys)
    (p : Package) (h : String)
    (hne : h ≠ "")
    (hmis : p.actualHash ≠ h) :
    (verifyUpdate p (some h)).1 = false ∧
    (verifyUpdate p (some h)).2
      = ["Hash mismatch: " ++ p.actualHash ++ " != " ++ h] ∧
    cliVerifyAndApply u e s p (some h)
      = ⟨false, s, [], ["Update verification failed"]⟩ := by
  have hv : verifyUpdate p (some h)
      = (false, ["Hash mismatch: " ++ p.actualHash ++ " != " ++ h]) := by
    simp only [verifyUpdate]
    rw [if_neg hne, if_pos hmis]
  refine ⟨by rw [hv], by rw [hv], ?_⟩
  unfold cliVerifyAndApply
  rw [hv]
  simp

/-- C6 witness: a concrete mismatching hash is rejected and the gate
returns with the state unchanged. -/
theorem verify_update_hash_gate_witness :
    (verifyUpdate pkgZipBadHash (some "beef")).1 = false ∧
    cliVerifyAndApply theUpdater env0 sys0 pkgZipBadHash (some "beef")
      = ⟨false, sys0, [], ["Update verification failed"]⟩ := by
  have h := verify_update_hash_gate theUpdater env0 sys0 pkgZipBadHash "beef"
    (by decide) (by decide)
  exact ⟨h.1, h.2.2⟩

/-- C6 counterexample: after a failed verification (here a hash mismatch in
the gate), the downloaded package file is still on disk — CLI.update never
deletes it (bootstrapper.py lines 1340-1349 have no unlink on this path). -/
theorem failed_verification_leaves_package_on_disk :
    pkgZipBadHash.actualHash ≠ "cafe" ∧
    (verifyUpdate pkgZipBadHash (some "cafe")).1 = false ∧
    (cliVerifyAndApply theUpdater env0 sys0 pkgZipBadHash (some "cafe")).sys.pkgOnDisk
      = true := by decide

/-- C7 (amended): a successful staging performs its sub-steps in the order:
extract the package into a temp dir, stop running instances, copy the
whitelist out, delete the install dir, copy the new files in, copy the
whitelist back — extraction comes first, not after the deletion, and the
whitelist copy-out happens after stopping instances. -/
theorem staging_order_actual (u : Updater) (e : UpdateEnv) (s : Sys)
    (inst app : Dir)
    (hro : e.rollbackOnError = true)
    (hinst : s.install = some inst)
    (hsfx : pySuffix e.updName = ".zip" ∨ pySuffix e.updName ∈ tarSuffixes)
    (hf : e.faults = noFaults)
    (hloc : locateApp e.pkgItems = some app) :
    (applyUpdate u e s).ok = true ∧
    (applyUpdate u e s).trace
      = [Ev.createBackup, Ev.extract, Ev.stopInstances, Ev.copyConfigOut,
         Ev.removeInstall, Ev.copyNewFiles, Ev.copyConfigBack, Ev.writeVersion,
         Ev.cleanup] := by
  rw [applyUpdate_success_eq u e s inst app hro hinst hsfx hf hloc]
  exact ⟨rfl, rfl⟩

/-- C7 witness: the concrete successful run shows the actual step order. -/
theorem staging_order_actual_witness :
    (applyUpdate theUpdater env0 sys0).ok = true ∧
    (applyUpdate theUpdater env0 sys0).trace
      = [Ev.createBackup, Ev.extract, Ev.stopInstances, Ev.copyConfigOut,
         Ev.removeInstall, Ev.copyNewFiles, Ev.copyConfigBack, Ev.writeVersion,
         Ev.cleanup] :=
  staging_order_actual theUpdater env0 sys0 instDir0 pkgApp rfl rfl
    (Or.inl (by decide)) rfl (by decide)

/-- C7 counterexample: in a successful run the staging sub-steps occur in
the order extract, stopInstances, copyConfigOut, removeInstall,
copyNewFiles, copyConfigBack, which differs from the claimed order
(copy-out first, extraction fourth). -/
theorem staging_order_differs_from_claim :
    (applyUpdate theUpdater env0 sys0).ok = true ∧
    (applyUpdate theUpdater env0 sys0).trace.filter
      (fun ev => decide (ev ∈ stagingSteps)) = actualStagingOrder ∧
    actualStagingOrder ≠ claimedStagingOrder := by decide

/-- C8 (amended): check_installation returns true iff BOTH required files —
autoclicker.py and requirements.txt — exist under the install path, not the
entry point alone. -/
theorem check_installation_requires_both (s : Sys) :
    checkInstallation s = true ↔
      (fileExists s "autoclicker.py" = true ∧
       fileExists s "requirements.txt" = true) := by
  simp [checkInstallation]

/-- C8 counterexample: an install dir holding only the entry point
autoclicker.py (no requirements.txt) makes check_installation return
false, refuting the claimed "iff the entry-point file exists". -/
theorem entrypoint_alone_not_installed :
    fileExists sysOnlyEntry "autoclicker.py" = true ∧
    checkInstallation sysOnlyEntry = false := by decide

/-- C9 (code bug): pathlib gives "update.tar.gz" the suffix ".gz", which is
not in the source's own list ['.tar', '.tar.gz', '.tgz'], so apply_update
reports an unsupported format and returns False without extracting, and
verify_update runs no structural check at all on such a file — it returns
true even for a structurally corrupt archive.  A .tgz name is matched. -/
theorem tar_gz_package_rejected :
    pySuffix "update.tar.gz" = ".gz" ∧
    (".gz" ∉ tarSuffixes ∧ (".gz" : String) ≠ ".zip") ∧
    (applyUpdate theUpdater envTarGz sys0).ok = false ∧
    (applyUpdate theUpdater envTarGz sys0).log
      = ["Unsupported archive format: .gz"] ∧
    (applyUpdate theUpdater envTarGz sys0).trace = [Ev.createBackup] ∧
    pkgTarGzCorrupt.tarIntact = false ∧
    (verifyUpdate pkgTarGzCorrupt none).1 = true ∧
    pySuffix "update.tgz" ∈ tarSuffixes := by decide

/-- C10: the whitelist copies placed in CONFIG_DIR are never deleted, so on
a later update any whitelist file present there — here a stale copy — is
copied into the freshly staged install dir even though it was absent from
the installation immediately before the update, and the CONFIG_DIR copy
itself survives the run. -/
theorem stale_whitelist_copy_reinstalled (u : Updater) (e : UpdateEnv) (s : Sys)
    (inst app : Dir) (f b : String)
    (hro : e.rollbackOnError = true)
    (hinst : s.install = some inst)
    (hsfx : pySuffix e.updName = ".zip" ∨ pySuffix e.updName ∈ tarSuffixes)
    (hf : e.faults = noFaults)
    (hloc : locateApp e.pkgItems = some app)
    (hmem : f ∈ keepFiles)
    (habsent : lookupFile inst f = none)
    (hstale : lookupFile s.config f = some b) :
    (applyUpdate u e s).ok = true ∧
    lookupFile ((applyUpdate u e s).sys.install.getD []) f = some b ∧
    lookupFile (applyUpdate u e s).sys.config f = some b := by
  rw [applyUpdate_success_eq u e s inst app hro hinst hsfx hf hloc]
  have hcfg : lookupFile (copyOutAux inst keepFiles s.config) f = some b := by
    rw [lookupFile_copyOutAux_none inst keepFiles s.config f habsent]
    exact hstale
  refine ⟨rfl, ?_, hcfg⟩
  show lookupFile (setFile (copyBackPure (copyOutAux inst keepFiles s.config)
    keepFiles app) "version.txt" u.current_version) f = some b
  rw [lookupFile_setFile_ne _ _ _ f (mem_keepFiles_ne_version f hmem)]
  exact lookupFile_copyBackPure_mem _ _ _ f b keepFiles_nodup hmem hcfg

/-- C10 witness: a stale profiles.json in CONFIG_DIR reappears in the
freshly staged install dir although the installation did not contain it
before the update. -/
theorem stale_whitelist_copy_reinstalled_witness :
    (applyUpdate theUpdater env0 sysStale).ok = true ∧
    lookupFile ((applyUpdate theUpdater env0 sysStale).sys.install.getD [])
      "profiles.json" = some "stale-profiles" ∧
    lookupFile (applyUpdate theUpdater env0 sysStale).sys.config
      "profiles.json" = some "stale-profiles" :=
  stale_whitelist_copy_reinstalled theUpdater env0 sysStale
    [("autoclicker.py", "old-code")] pkgApp "profiles.json" "stale-profiles"
    rfl rfl (Or.inl (by decide)) rfl (by decide) (by decide) rfl rfl

end Autoclicker
